import Mathlib

/-!
Shallow embedding of the Lyftr webhook service (src/app/main.py,
src/app/models.py) together with proofs of the specification claims.

Bytes are modelled as `Nat` values below 256; 32-bit machine words as
`Nat` reduced modulo 2^32 at every arithmetic step.  The SQLite store is
modelled as a list of rows; the SQL queries issued by the endpoints are
translated operation by operation (filter, order, limit/offset,
aggregate).
-/

namespace LyftrSpec

/-! ### 32-bit word arithmetic (for SHA-256) -/

def w32 : Nat := 2 ^ 32

def mask32 : Nat := 0xFFFFFFFF

def add32 (a b : Nat) : Nat := (a + b) % w32

/-- Right rotation of a 32-bit word. -/
def rotr (n x : Nat) : Nat := ((x >>> n) ||| (x <<< (32 - n))) &&& mask32

/-! ### SHA-256 (FIPS 180-4), as used by Python hashlib.sha256 -/

def sha256K : List Nat :=
  [1116352408, 1899447441, 3049323471, 3921009573, 961987163, 1508970993,
   2453635748, 2870763221, 3624381080, 310598401, 607225278, 1426881987,
   1925078388, 2162078206, 2614888103, 3248222580, 3835390401, 4022224774,
   264347078, 604807628, 770255983, 1249150122, 1555081692, 1996064986,
   2554220882, 2821834349, 2952996808, 3210313671, 3336571891, 3584528711,
   113926993, 338241895, 666307205, 773529912, 1294757372, 1396182291,
   1695183700, 1986661051, 2177026350, 2456956037, 2730485921, 2820302411,
   3259730800, 3345764771, 3516065817, 3600352804, 4094571909, 275423344,
   430227734, 506948616, 659060556, 883997877, 958139571, 1322822218,
   1537002063, 1747873779, 1955562222, 2024104815, 2227730452, 2361852424,
   2428436474, 2756734187, 3204031479, 3329325298]

def sha256H0 : List Nat :=
  [1779033703, 3144134277, 1013904242, 2773480762, 1359893119, 2600822924,
   528734635, 1541459225]

/-- Big-endian 8-byte encoding of a (64-bit) natural number. -/
def be64 (n : Nat) : List Nat :=
  [(n >>> 56) % 256, (n >>> 48) % 256, (n >>> 40) % 256, (n >>> 32) % 256,
   (n >>> 24) % 256, (n >>> 16) % 256, (n >>> 8) % 256, n % 256]

/-- Big-endian 4-byte encoding of a 32-bit word. -/
def be32 (n : Nat) : List Nat :=
  [(n >>> 24) % 256, (n >>> 16) % 256, (n >>> 8) % 256, n % 256]

/-- SHA-256 message padding: append 0x80, zero bytes up to 56 mod 64,
then the bit length as 8 big-endian bytes. -/
def padMessage (msg : List Nat) : List Nat :=
  let r := (msg.length + 1) % 64
  let k := (56 + 64 - r) % 64
  msg ++ [0x80] ++ List.replicate k 0 ++ be64 (msg.length * 8)

/-- Split a byte list into 64-byte blocks.  The `Nat` fuel argument is
an upper bound on the number of blocks; `toBlocks` supplies enough. -/
def toBlocksAux : Nat → List Nat → List (List Nat)
  | _, [] => []
  | 0, _ => []
  | n + 1, b :: bs => ((b :: bs).take 64) :: toBlocksAux n ((b :: bs).drop 64)

/-- Split a byte list into 64-byte blocks. -/
def toBlocks (bs : List Nat) : List (List Nat) := toBlocksAux bs.length bs

/-- Combine consecutive groups of 4 bytes into big-endian 32-bit words. -/
def toWords32 : List Nat → List Nat
  | b0 :: b1 :: b2 :: b3 :: rest =>
      (b0 * 2 ^ 24 + b1 * 2 ^ 16 + b2 * 2 ^ 8 + b3) % w32 :: toWords32 rest
  | _ => []

def smallSigma0 (x : Nat) : Nat := (rotr 7 x) ^^^ (rotr 18 x) ^^^ (x >>> 3)

def smallSigma1 (x : Nat) : Nat := (rotr 17 x) ^^^ (rotr 19 x) ^^^ (x >>> 10)

/-- One step of the message-schedule extension: append
w[i] = w[i-16] + sigma0 w[i-15] + w[i-7] + sigma1 w[i-2]. -/
def scheduleStep (ws : List Nat) : List Nat :=
  ws ++ [(ws.getD (ws.length - 16) 0 + smallSigma0 (ws.getD (ws.length - 15) 0) +
          ws.getD (ws.length - 7) 0 + smallSigma1 (ws.getD (ws.length - 2) 0)) % w32]

def extendSchedule : List Nat → Nat → List Nat
  | ws, 0 => ws
  | ws, n + 1 => extendSchedule (scheduleStep ws) n

def bigSigma0 (x : Nat) : Nat := (rotr 2 x) ^^^ (rotr 13 x) ^^^ (rotr 22 x)

def bigSigma1 (x : Nat) : Nat := (rotr 6 x) ^^^ (rotr 11 x) ^^^ (rotr 25 x)

/-- One SHA-256 round applied to the 8-register state. -/
def sha256Round (ws : List Nat) (st : List Nat) (i : Nat) : List Nat :=
  match st with
  | [a, b, c, d, e, f, g, h] =>
      let ch := (e &&& f) ^^^ ((e ^^^ mask32) &&& g)
      let t1 := (h + bigSigma1 e + ch + sha256K.getD i 0 + ws.getD i 0) % w32
      let maj := (a &&& b) ^^^ (a &&& c) ^^^ (b &&& c)
      let t2 := (bigSigma0 a + maj) % w32
      [(t1 + t2) % w32, a, b, c, (d + t1) % w32, e, f, g]
  | other => other

/-- SHA-256 compression of one 64-byte block into the running state. -/
def sha256Compress (state : List Nat) (block : List Nat) : List Nat :=
  let ws := extendSchedule (toWords32 block) 48
  let final := (List.range 64).foldl (sha256Round ws) state
  List.zipWith add32 state final

/-- SHA-256 digest (32 bytes) of a byte string. -/
def sha256 (msg : List Nat) : List Nat :=
  let final := (toBlocks (padMessage msg)).foldl sha256Compress sha256H0
  (final.map be32).foldr (· ++ ·) []

/-! ### HMAC-SHA256 (RFC 2104), as used by Python hmac.new(key, msg, sha256) -/

def hmacSha256 (key msg : List Nat) : List Nat :=
  let k0 := if 64 < key.length then sha256 key else key
  let kPad := k0 ++ List.replicate (64 - k0.length) 0
  let ipadded := kPad.map (fun b => b ^^^ 0x36)
  let opadded := kPad.map (fun b => b ^^^ 0x5c)
  sha256 (opadded ++ sha256 (ipadded ++ msg))

/-! ### Lowercase hex encoding, as produced by Python hexdigest() -/

def hexChar (n : Nat) : Char :=
  if n < 10 then Char.ofNat ('0'.toNat + n) else Char.ofNat ('a'.toNat + (n - 10))

def hexByte (b : Nat) : List Char := [hexChar (b / 16), hexChar (b % 16)]

def hexEncode (bs : List Nat) : String := ⟨(bs.map hexByte).foldr (· ++ ·) []⟩

/-- UTF-8 encoding of one character (model of Python str.encode()). -/
def utf8Char (c : Char) : List Nat :=
  let n := c.toNat
  if n < 0x80 then [n]
  else if n < 0x800 then
    [0xC0 ||| (n >>> 6), 0x80 ||| (n &&& 0x3F)]
  else if n < 0x10000 then
    [0xE0 ||| (n >>> 12), 0x80 ||| ((n >>> 6) &&& 0x3F), 0x80 ||| (n &&& 0x3F)]
  else
    [0xF0 ||| (n >>> 18), 0x80 ||| ((n >>> 12) &&& 0x3F),
     0x80 ||| ((n >>> 6) &&& 0x3F), 0x80 ||| (n &&& 0x3F)]

/-- UTF-8 byte encoding of a string. -/
def strBytes (s : String) : List Nat := (s.data.map utf8Char).foldr (· ++ ·) []

/-- Lowercase hex HMAC-SHA256 digest of a raw body keyed by the shared
secret, exactly the value computed in verify_signature (main.py:128-132). -/
def hmacSha256Hex (secret : String) (body : List Nat) : String :=
  hexEncode (hmacSha256 (strBytes secret) body)

/-! ### Data model (src/app/models.py) -/

/-- A row of the `messages` table (models.py:10-34).  `text` is nullable;
`created_at` is server-assigned at insert time. -/
structure Message where
  message_id : String
  from_msisdn : String
  to_msisdn : String
  ts : String
  text : Option String
  created_at : String
deriving DecidableEq, Repr

/-- A validated webhook payload (models.py:38-58), after Pydantic
validation succeeded.  The wire names "from"/"to" map to
`from_msisdn`/`to_msisdn`. -/
structure WebhookPayload where
  message_id : String
  from_msisdn : String
  to_msisdn : String
  ts : String
  text : Option String
deriving DecidableEq, Repr

/-- The raw JSON object of a webhook request, before validation: each
field is absent (`none`) or a string.  Wire name "from" is
`from_msisdn`, "to" is `to_msisdn`. -/
structure RawPayload where
  message_id : Option String
  from_msisdn : Option String
  to_msisdn : Option String
  ts : Option String
  text : Option String
deriving DecidableEq, Repr

/-- The external shape of a listed message (models.py:60-73):
`created_at` is not serialized. -/
structure MessageResponse where
  message_id : String
  from_msisdn : String
  to_msisdn : String
  ts : String
  text : Option String
deriving DecidableEq, Repr

/-! ### Payload validation (Pydantic field constraints, models.py:38-58) -/

/-- The codepoint ranges of the Unicode general category Nd (decimal
digits), as enumerated by Python's unicodedata: this is exactly the
character class that `\d` matches in Python re and in pydantic-core's
regex engine. -/
def ndRanges : List (Nat × Nat) :=
  [(48, 57), (1632, 1641), (1776, 1785), (1984, 1993),
   (2406, 2415), (2534, 2543), (2662, 2671), (2790, 2799),
   (2918, 2927), (3046, 3055), (3174, 3183), (3302, 3311),
   (3430, 3439), (3558, 3567), (3664, 3673), (3792, 3801),
   (3872, 3881), (4160, 4169), (4240, 4249), (6112, 6121),
   (6160, 6169), (6470, 6479), (6608, 6617), (6784, 6793),
   (6800, 6809), (6992, 7001), (7088, 7097), (7232, 7241),
   (7248, 7257), (42528, 42537), (43216, 43225), (43264, 43273),
   (43472, 43481), (43504, 43513), (43600, 43609), (44016, 44025),
   (65296, 65305), (66720, 66729), (68912, 68921), (69734, 69743),
   (69872, 69881), (69942, 69951), (70096, 70105), (70384, 70393),
   (70736, 70745), (70864, 70873), (71248, 71257), (71360, 71369),
   (71472, 71481), (71904, 71913), (72016, 72025), (72784, 72793),
   (73040, 73049), (73120, 73129), (92768, 92777), (92864, 92873),
   (93008, 93017), (120782, 120831), (123200, 123209), (123632, 123641),
   (125264, 125273), (130032, 130041)]

/-- The character class `\d` of the code's regexes: any Unicode decimal
digit (category Nd), not only ASCII 0-9. -/
def isUnicodeDigit (c : Char) : Bool :=
  ndRanges.any (fun r => decide (r.1 ≤ c.toNat) && decide (c.toNat ≤ r.2))

/-- The regex `^\+[1-9]\d\x7b1,14\x7d$` of models.py:48 as a character
test: a plus sign, one ASCII digit 1-9 (the class [1-9]), then 1 to 14
further Unicode decimal digits (the class \d). -/
def matchesE164 (s : String) : Bool :=
  match s.data with
  | '+' :: c :: rest =>
      decide ('1' ≤ c) && decide (c ≤ '9') && rest.all isUnicodeDigit &&
      decide (1 ≤ rest.length) && decide (rest.length ≤ 14)
  | _ => false

/-- The regex of models.py:55: exactly the 20-character shape
YYYY-MM-DDTHH:MM:SSZ with a Unicode decimal digit (\d) in each numeric
position. -/
def matchesTsPattern (s : String) : Bool :=
  match s.data with
  | [y1, y2, y3, y4, '-', m1, m2, '-', d1, d2, 'T',
     h1, h2, ':', n1, n2, ':', s1, s2, 'Z'] =>
      [y1, y2, y3, y4, m1, m2, d1, d2, h1, h2, n1, n2, s1, s2].all isUnicodeDigit
  | _ => false

/-- Pydantic validation of a webhook body (models.py:38-58): all four
required fields present, `message_id` of length at least 1, both
addresses matching the E.164 regex, `ts` matching the timestamp regex,
and `text` absent or at most 4096 characters. -/
def validatePayload (raw : RawPayload) : Option WebhookPayload :=
  match raw.message_id, raw.from_msisdn, raw.to_msisdn, raw.ts with
  | some mid, some f, some t, some ts =>
      if decide (1 ≤ mid.length) && matchesE164 f && matchesE164 t &&
         matchesTsPattern ts &&
         (match raw.text with
          | none => true
          | some x => decide (x.length ≤ 4096)) then
        some { message_id := mid, from_msisdn := f, to_msisdn := t, ts := ts, text := raw.text }
      else none
  | _, _, _, _ => none

/-! ### Webhook endpoint (main.py:115-188) -/

structure HttpResponse where
  status : Nat
  body : String
deriving DecidableEq, Repr

/-- The body returned by POST /webhook in both the created and the
duplicate case (main.py:173 and main.py:188). -/
def okBody : HttpResponse := { status := 200, body := "\x7b\"status\":\"ok\"\x7d" }

/-- The 401 response raised by verify_signature (main.py:122,137). -/
def invalidSignatureResponse : HttpResponse :=
  { status := 401, body := "\x7b\"detail\":\"invalid signature\"\x7d" }

/-- The 422 response produced by FastAPI request validation (the body
detail list is not modelled beyond a constant marker). -/
def validationErrorResponse : HttpResponse :=
  { status := 422, body := "\x7b\"detail\":\"validation error\"\x7d" }

/-- The INSERT of main.py:160-162: add the row, or fail with an
integrity error when a row with the same primary key already exists
(second component: `true` = created, `false` = duplicate conflict). -/
def insert_message (store : List Message) (m : Message) : List Message × Bool :=
  if store.any (fun x => x.message_id == m.message_id) then (store, false)
  else (store ++ [m], true)

/-- receive_webhook (main.py:144-188): build the row from the validated
payload (with server-assigned created_at = `now`), attempt the insert,
and in both the created branch and the IntegrityError branch return
200 ok. -/
def receive_webhook (store : List Message) (p : WebhookPayload) (now : String) :
    HttpResponse × List Message :=
  let m : Message :=
    { message_id := p.message_id, from_msisdn := p.from_msisdn,
      to_msisdn := p.to_msisdn, ts := p.ts, text := p.text, created_at := now }
  let r := insert_message store m
  if r.2 then (okBody, r.1)      -- created (main.py:164-173)
  else (okBody, r.1)             -- duplicate: rollback, same body (main.py:175-188)

/-- verify_signature (main.py:115-140): reject when the X-Signature
header is missing or empty (Python truthiness), otherwise compare it
against the hex HMAC-SHA256 of the raw body under the shared secret. -/
def verify_signature (secret : String) (xSignature : Option String) (body : List Nat) : Bool :=
  match xSignature with
  | none => false
  | some sig =>
      if sig = "" then false
      else sig == hmacSha256Hex secret body

/-- The JSON-decode outcome of a request body, as FastAPI's request
handler sees it before and after running dependencies:
`undecodable` is a body that raises json.JSONDecodeError;
`otherJson` is anything else that is not a JSON object carrying the
five fields as absent-or-string values (other JSON values, non-JSON
content types, the empty body); `objectOf raw` is a JSON object viewed
through the five optional string fields. -/
inductive BodyDecode where
  | undecodable
  | otherJson
  | objectOf (raw : RawPayload)
deriving DecidableEq

/-- A POST /webhook request: the X-Signature header (absent or a
string), the raw body bytes, and the JSON-decode outcome of those
bytes. -/
structure WebhookRequest where
  xSignature : Option String
  body : List Nat
  decoded : BodyDecode

/-- The part of the /webhook pipeline that runs after the signature
gate: Pydantic validation of the decoded body (422 on failure), then
receive_webhook. -/
def webhook_after_gate (store : List Message) (now : String) (decoded : BodyDecode) :
    HttpResponse × List Message :=
  match decoded with
  | BodyDecode.objectOf raw =>
      match validatePayload raw with
      | none => (validationErrorResponse, store)
      | some p => receive_webhook store p now
  | _ => (validationErrorResponse, store)

/-- The full /webhook pipeline.  FastAPI's request handler
(fastapi/routing.py, get_request_handler) JSON-decodes a non-empty
request body BEFORE solving route dependencies, and answers a
json.JSONDecodeError with a 422 RequestValidationError; only then does
the verify_signature dependency of main.py:144 run, and only after it
accepts is the decoded body validated against WebhookPayload. -/
def handle_webhook (secret : String) (store : List Message) (now : String)
    (req : WebhookRequest) : HttpResponse × List Message :=
  if req.body ≠ [] ∧ req.decoded = BodyDecode.undecodable then
    (validationErrorResponse, store)
  else if verify_signature secret req.xSignature req.body then
    webhook_after_gate store now req.decoded
  else (invalidSignatureResponse, store)

/-! ### Query engine: GET /messages (main.py:192-244) -/

def toResponse (m : Message) : MessageResponse :=
  { message_id := m.message_id, from_msisdn := m.from_msisdn,
    to_msisdn := m.to_msisdn, ts := m.ts, text := m.text }

/-- SQLite lower(): ASCII-only lowercasing. -/
def asciiLowerChar (c : Char) : Char :=
  if 'A' ≤ c ∧ c ≤ 'Z' then Char.ofNat (c.toNat + 32) else c

def asciiLower (s : String) : String := ⟨s.data.map asciiLowerChar⟩

/-- The non-empty suffixes of a list followed by the empty suffix,
longest first. -/
def suffixes : List Char → List (List Char)
  | [] => [[]]
  | c :: cs => (c :: cs) :: suffixes cs

/-- SQL LIKE pattern matching over characters: `%` matches any
(possibly empty) sequence, `_` matches exactly one character, every
other pattern character matches itself. -/
def likeMatch : List Char → List Char → Bool
  | [], cs => cs.isEmpty
  | p :: ps, cs =>
      if p = '%' then (suffixes cs).any (fun s => likeMatch ps s)
      else
        match cs with
        | [] => false
        | c :: cs2 => (if p = '_' then true else p == c) && likeMatch ps cs2

/-- The `q` filter of main.py:214: `text ILIKE '%q%'`, rendered by
SQLAlchemy on SQLite as lower(text) LIKE lower('%q%'). -/
def qLikeMatch (q t : String) : Bool :=
  likeMatch (asciiLower ("%" ++ q ++ "%")).data (asciiLower t).data

/-- Lexicographic strict comparison of character lists: the order in
which SQLite's BINARY collation compares TEXT values. -/
def listCharLt : List Char → List Char → Bool
  | [], [] => false
  | [], _ :: _ => true
  | _ :: _, [] => false
  | c :: cs, d :: ds => if c < d then true else if d < c then false else listCharLt cs ds

/-- Lexicographic non-strict comparison of character lists. -/
def listCharLe : List Char → List Char → Bool
  | [], _ => true
  | _ :: _, [] => false
  | c :: cs, d :: ds => if c < d then true else if d < c then false else listCharLe cs ds

def strLt (a b : String) : Bool := listCharLt a.data b.data

def strLe (a b : String) : Bool := listCharLe a.data b.data

/-- The filter chain of the page query (main.py:206-214).  Each filter
is added only when the parameter is truthy (present and non-empty). -/
def pageFiltered (store : List Message) (fromQ sinceQ q : Option String) : List Message :=
  let r1 := match fromQ with
    | some f => if f = "" then store else store.filter (fun m => m.from_msisdn == f)
    | none => store
  let r2 := match sinceQ with
    | some s => if s = "" then r1 else r1.filter (fun m => strLe s m.ts)
    | none => r1
  match q with
  | some qs =>
      if qs = "" then r2
      else r2.filter (fun m => match m.text with
        | some t => qLikeMatch qs t
        | none => false)
  | none => r2

/-- The separately built count query (main.py:216-226): the same three
conditional filters applied to a COUNT(*). -/
def countFiltered (store : List Message) (fromQ sinceQ q : Option String) : Nat :=
  let r1 := match fromQ with
    | some f => if f = "" then store else store.filter (fun m => m.from_msisdn == f)
    | none => store
  let r2 := match sinceQ with
    | some s => if s = "" then r1 else r1.filter (fun m => strLe s m.ts)
    | none => r1
  let r3 := match q with
    | some qs =>
        if qs = "" then r2
        else r2.filter (fun m => match m.text with
          | some t => qLikeMatch qs t
          | none => false)
    | none => r2
  r3.length

/-- The conjunction of the three row conditions of main.py:206-214 as a
single predicate (associated the way chained List.filter composes). -/
def rowPred (fromQ sinceQ q : Option String) (m : Message) : Bool :=
  ((match fromQ with
    | some f => if f = "" then true else m.from_msisdn == f
    | none => true) &&
   (match sinceQ with
    | some s => if s = "" then true else strLe s m.ts
    | none => true)) &&
  (match q with
   | some qs =>
       if qs = "" then true
       else
         match m.text with
         | some t => qLikeMatch qs t
         | none => false
   | none => true)

/-- ORDER BY ts ASC, message_id ASC (main.py:229): the lexicographic
comparison on (timestamp, message_id). -/
def msgLeProp (a b : Message) : Prop :=
  strLt a.ts b.ts = true ∨ (a.ts = b.ts ∧ strLe a.message_id b.message_id = true)

instance : DecidableRel msgLeProp := fun a b =>
  inferInstanceAs
    (Decidable (strLt a.ts b.ts = true ∨ (a.ts = b.ts ∧ strLe a.message_id b.message_id = true)))

structure ListResult where
  data : List MessageResponse
  total : Nat
  limit : Int
  offset : Int
deriving DecidableEq, Repr

/-- list_messages after parameter validation (main.py:200-244): run the
count query, then the page query with order, limit and offset, and
echo limit/offset. -/
def list_messages_ok (store : List Message) (limit offset : Int)
    (fromQ sinceQ q : Option String) : ListResult :=
  let total := countFiltered store fromQ sinceQ q
  let page := ((List.insertionSort msgLeProp (pageFiltered store fromQ sinceQ q)).drop
    offset.toNat).take limit.toNat
  { data := page.map toResponse, total := total, limit := limit, offset := offset }

/-- The GET /messages endpoint (main.py:192-199): FastAPI rejects with
422 a supplied limit outside 1..100 or a supplied offset below 0;
omitted parameters default to limit=50, offset=0. -/
def list_messages (store : List Message) (limitRaw offsetRaw : Option Int)
    (fromQ sinceQ q : Option String) : Except Nat ListResult :=
  let limit := limitRaw.getD 50
  let offset := offsetRaw.getD 0
  if limit < 1 ∨ 100 < limit then Except.error 422
  else if offset < 0 then Except.error 422
  else Except.ok (list_messages_ok store limit offset fromQ sinceQ q)

/-! ### Analytics: GET /stats (main.py:248-289) -/

structure StatsResult where
  total_messages : Nat
  senders_count : Nat
  messages_per_sender : List (String × Nat)
  first_message_ts : Option String
  last_message_ts : Option String
deriving DecidableEq, Repr

/-- ORDER BY count(message_id) DESC (main.py:267): sender-count pairs
ordered by descending count. -/
def senderCountGe (a b : String × Nat) : Prop := b.2 ≤ a.2

instance : DecidableRel senderCountGe := fun a b =>
  Nat.decLe b.2 a.2

/-- SQL MIN over a list of values (none when empty). -/
def minString? : List String → Option String
  | [] => none
  | t :: ts => some (ts.foldl (fun acc x => if strLe acc x then acc else x) t)

/-- SQL MAX over a list of values (none when empty). -/
def maxString? : List String → Option String
  | [] => none
  | t :: ts => some (ts.foldl (fun acc x => if strLe acc x then x else acc) t)

/-- get_stats (main.py:248-289): total row count, distinct sender
count, top 10 senders by descending message count (tie order is an
implementation detail), and min/max timestamp (both none on an empty
store). -/
def get_stats (store : List Message) : StatsResult :=
  let senders := (store.map (fun m => m.from_msisdn)).dedup
  let counts := senders.map (fun s => (s, store.countP (fun m => m.from_msisdn == s)))
  { total_messages := store.length
    senders_count := senders.length
    messages_per_sender := (List.insertionSort senderCountGe counts).take 10
    first_message_ts := minString? (store.map (fun m => m.ts))
    last_message_ts := maxString? (store.map (fun m => m.ts)) }

/-! ### Specification-side predicates

These definitions follow the wording of the specification (spec.md) and
of the claims, to be compared against the code-derived definitions
above. -/

/-- Claim C4's wording: an E.164 address is a plus sign followed by 2
to 15 digits (0-9), the first digit non-zero. -/
def E164Spec (s : String) : Prop :=
  ∃ ds : List Char, s.data = '+' :: ds ∧ 2 ≤ ds.length ∧ ds.length ≤ 15 ∧
    (∀ c ∈ ds, '0' ≤ c ∧ c ≤ '9') ∧ ds.head? ≠ some '0'

/-- Claim C4's wording: a timestamp is a string of the form
YYYY-MM-DDTHH:MM:SSZ, i.e. digit (0-9) groups of sizes 4,2,2,2,2,2
joined by the literal separators. -/
def TsSpec (s : String) : Prop :=
  ∃ y mo d h mi sec : List Char,
    y.length = 4 ∧ mo.length = 2 ∧ d.length = 2 ∧ h.length = 2 ∧
    mi.length = 2 ∧ sec.length = 2 ∧
    (∀ c ∈ y ++ mo ++ d ++ h ++ mi ++ sec, '0' ≤ c ∧ c ≤ '9') ∧
    s.data = y ++ '-' :: (mo ++ '-' :: (d ++ 'T' :: (h ++ ':' :: (mi ++ ':' :: (sec ++ ['Z'])))))

/-- The payload shapes claim C4 describes (digits are 0-9). -/
def shapeValidSpec (raw : RawPayload) : Prop :=
  (∃ mid, raw.message_id = some mid ∧ mid ≠ "") ∧
  (∃ f, raw.from_msisdn = some f ∧ E164Spec f) ∧
  (∃ t, raw.to_msisdn = some t ∧ E164Spec t) ∧
  (∃ ts, raw.ts = some ts ∧ TsSpec ts) ∧
  (raw.text = none ∨ ∃ x, raw.text = some x ∧ x.length ≤ 4096)

/-- Amended C4 wording for addresses: a plus sign, then 2 to 15 digits
of which the first must be an ASCII digit 1-9 (the regex class [1-9])
while the rest may be any Unicode decimal digits (the regex class \d). -/
def E164SpecU (s : String) : Prop :=
  ∃ ds : List Char, s.data = '+' :: ds ∧ 2 ≤ ds.length ∧ ds.length ≤ 15 ∧
    (∀ c ∈ ds, isUnicodeDigit c = true) ∧
    (∃ d, ds.head? = some d ∧ '1' ≤ d ∧ d ≤ '9')

/-- Amended C4 wording for timestamps: the shape YYYY-MM-DDTHH:MM:SSZ
with any Unicode decimal digit in each digit position. -/
def TsSpecU (s : String) : Prop :=
  ∃ y mo d h mi sec : List Char,
    y.length = 4 ∧ mo.length = 2 ∧ d.length = 2 ∧ h.length = 2 ∧
    mi.length = 2 ∧ sec.length = 2 ∧
    (∀ c ∈ y ++ mo ++ d ++ h ++ mi ++ sec, isUnicodeDigit c = true) ∧
    s.data = y ++ '-' :: (mo ++ '-' :: (d ++ 'T' :: (h ++ ':' :: (mi ++ ':' :: (sec ++ ['Z'])))))

/-- The payload shapes the program accepts (amended C4). -/
def shapeValidSpecU (raw : RawPayload) : Prop :=
  (∃ mid, raw.message_id = some mid ∧ mid ≠ "") ∧
  (∃ f, raw.from_msisdn = some f ∧ E164SpecU f) ∧
  (∃ t, raw.to_msisdn = some t ∧ E164SpecU t) ∧
  (∃ ts, raw.ts = some ts ∧ TsSpecU ts) ∧
  (raw.text = none ∨ ∃ x, raw.text = some x ∧ x.length ≤ 4096)

/-- Spec wording of claim C6's `q` filter: a case-insensitive substring
match against the text field; messages whose text is absent never
match. -/
def qSubstringSpec (q : String) (m : Message) : Prop :=
  ∃ t, m.text = some t ∧
    ∃ pre post, (asciiLower t).data = pre ++ (asciiLower q).data ++ post

/-- Spec wording of claim C5's record order: timestamp ascending, then
message_id ascending. -/
def respOrdered (a b : MessageResponse) : Prop :=
  strLt a.ts b.ts = true ∨ (a.ts = b.ts ∧ strLe a.message_id b.message_id = true)

/-- `q` strings that contain no LIKE wildcard character. -/
def noWildcard (q : String) : Prop := ∀ c ∈ q.data, c ≠ '%' ∧ c ≠ '_'

/-! ### Concrete fixtures used by witnesses and counterexamples -/

def msgA : Message :=
  { message_id := "a1", from_msisdn := "+111", to_msisdn := "+222",
    ts := "2025-01-01T10:00:00Z", text := some "hello world",
    created_at := "2025-01-01T10:00:01Z" }

def msgB : Message :=
  { message_id := "b1", from_msisdn := "+333", to_msisdn := "+222",
    ts := "2025-01-01T09:00:00Z", text := none,
    created_at := "2025-01-01T09:00:01Z" }

/-- A shape-valid payload reusing msgA's message_id but no other field. -/
def payloadA : WebhookPayload :=
  { message_id := "a1", from_msisdn := "+999", to_msisdn := "+888",
    ts := "2025-02-02T00:00:00Z", text := none }

def rawGood : RawPayload :=
  { message_id := some "m9", from_msisdn := some "+1234567890",
    to_msisdn := some "+19876543210", ts := some "2025-01-01T12:00:00Z",
    text := some "hi" }

def payloadGood : WebhookPayload :=
  { message_id := "m9", from_msisdn := "+1234567890",
    to_msisdn := "+19876543210", ts := "2025-01-01T12:00:00Z",
    text := some "hi" }

/-- hmacSha256Hex "k" [] (the valid signature of an empty body under
secret "k"). -/
def kSig : String := "8bb990c40a7d61cb97597a942125025be50ac8beb74436e3735b98893a7f6620"

/-- A correctly signed request (secret "k", empty raw body) carrying a
shape-valid decoded payload. -/
def reqSigned : WebhookRequest :=
  { xSignature := some kSig, body := [], decoded := BodyDecode.objectOf rawGood }

/-- A request whose body is the single byte "\x7b" — not valid JSON —
and whose X-Signature matches no digest. -/
def reqBadJson : WebhookRequest :=
  { xSignature := some "deadbeef", body := strBytes "\x7b",
    decoded := BodyDecode.undecodable }

/-- A raw payload whose from address "+1٢" uses the Arabic-Indic digit
two (U+0662): matched by the code's \d but not a digit 0-9. -/
def rawUnicode : RawPayload :=
  { message_id := some "u1", from_msisdn := some "+1٢",
    to_msisdn := some "+19876543210", ts := some "2025-01-01T12:00:00Z",
    text := none }

/-- A stored message whose text "axb" matches LIKE pattern %a_b% but
does not contain the substring "a_b". -/
def wildMsg : Message :=
  { message_id := "w1", from_msisdn := "+12", to_msisdn := "+13",
    ts := "2025-01-01T00:00:00Z", text := some "axb", created_at := "c" }

/-! ### Claim C1: duplicate message_id never creates or mutates a row -/

/-- Claim C1: for every stored message set and every shape-valid payload
whose message_id already exists in the store, the insert attempt leaves
the store exactly as it was: no second row with that message_id is
created and every field of the existing row is unchanged. -/
theorem claim1_duplicate_insert_leaves_store_unchanged
    (store : List Message) (p : WebhookPayload) (now : String)
    (h : ∃ m ∈ store, m.message_id = p.message_id) :
    (receive_webhook store p now).2 = store := by
  obtain ⟨m, hm, hid⟩ := h
  have hany : (store.any fun x => x.message_id == p.message_id) = true :=
    List.any_eq_true.mpr ⟨m, hm, by simp [hid]⟩
  simp [receive_webhook, insert_message, hany]

/-- Witness for C1 at a concrete store and payload sharing message_id
"a1" but no other field. -/
theorem claim1_witness :
    (∃ m ∈ [msgA], m.message_id = payloadA.message_id) ∧
    (receive_webhook [msgA] payloadA "2025-03-03T00:00:00Z").2 = [msgA] :=
  ⟨by decide,
   claim1_duplicate_insert_leaves_store_unchanged [msgA] payloadA "2025-03-03T00:00:00Z"
     (by decide)⟩

/-! ### Claim C2: the webhook reports 200 ok in both outcomes -/

/-- Claim C2: every POST /webhook request that passes the signature gate
and payload validation is answered 200 with body ok, for every store,
so the created case and the duplicate case are indistinguishable to the
caller and a duplicate-key conflict is never surfaced as an error. -/
theorem claim2_webhook_created_and_duplicate_both_ok
    (secret : String) (store : List Message) (now : String) (req : WebhookRequest)
    (raw : RawPayload) (p : WebhookPayload)
    (hsig : verify_signature secret req.xSignature req.body = true)
    (hdec : req.decoded = BodyDecode.objectOf raw) (hval : validatePayload raw = some p) :
    (handle_webhook secret store now req).1 = okBody := by
  have hguard : ¬(req.body ≠ [] ∧ req.decoded = BodyDecode.undecodable) := by
    rintro ⟨_, hcon⟩
    rw [hdec] at hcon
    cases hcon
  simp [handle_webhook, hguard, webhook_after_gate, receive_webhook, hsig, hdec, hval,
    ite_self]

set_option maxRecDepth 1000000 in
/-- Witness for C2: a correctly signed request (secret "k", empty body)
with a shape-valid payload, run against the empty store. -/
theorem claim2_witness :
    verify_signature "k" reqSigned.xSignature reqSigned.body = true ∧
    reqSigned.decoded = BodyDecode.objectOf rawGood ∧
    validatePayload rawGood = some payloadGood ∧
    (handle_webhook "k" [] "2025-03-03T00:00:00Z" reqSigned).1 = okBody := by
  refine ⟨?_, rfl, by decide, ?_⟩
  · decide
  · exact claim2_webhook_created_and_duplicate_both_ok "k" [] "2025-03-03T00:00:00Z"
      reqSigned rawGood payloadGood (by decide) rfl (by decide)

/-! ### Claim C7: total is the filtered count, independent of paging -/

/-- Claim C7: the total returned by GET /messages equals the number of
messages matching the supplied filters (the page query's filter set
before ordering and pagination), and it does not depend on limit or
offset: the count query applies exactly the same filters as the page
query. -/
theorem claim7_total_is_filtered_count_and_page_independent
    (store : List Message) (fromQ sinceQ q : Option String) (l1 o1 l2 o2 : Int) :
    (list_messages_ok store l1 o1 fromQ sinceQ q).total =
      (pageFiltered store fromQ sinceQ q).length ∧
    (list_messages_ok store l1 o1 fromQ sinceQ q).total =
      (list_messages_ok store l2 o2 fromQ sinceQ q).total :=
  ⟨rfl, rfl⟩

/-! ### Claim C9: stats on the empty store -/

/-- Claim C9: GET /stats on the empty store reports zero totals, no
senders, and null first/last timestamps; the empty store is not an
error. -/
theorem claim9_stats_empty_store :
    get_stats [] =
      { total_messages := 0, senders_count := 0, messages_per_sender := [],
        first_message_ts := none, last_message_ts := none } := rfl

/-! ### Claim C10: empty-string filters behave as absent filters -/

/-- Claim C10: supplying an empty string for any of from, since or q
yields exactly the same response (data, total, limit, offset) as
omitting the parameter; in particular an empty from filter excludes
nothing. -/
theorem claim10_empty_string_filters_are_absent
    (store : List Message) (limitRaw offsetRaw : Option Int)
    (fromQ sinceQ q : Option String) :
    list_messages store limitRaw offsetRaw (some "") sinceQ q =
      list_messages store limitRaw offsetRaw none sinceQ q ∧
    list_messages store limitRaw offsetRaw fromQ (some "") q =
      list_messages store limitRaw offsetRaw fromQ none q ∧
    list_messages store limitRaw offsetRaw fromQ sinceQ (some "") =
      list_messages store limitRaw offsetRaw fromQ sinceQ none :=
  ⟨rfl, rfl, rfl⟩

/-! ### Digest shape lemmas (the hex digest is never the empty string) -/

theorem sha256Round_length (ws st : List Nat) (i : Nat) :
    (sha256Round ws st i).length = st.length := by
  unfold sha256Round
  split <;> simp

theorem foldl_sha256Round_length (ws : List Nat) :
    ∀ (l : List Nat) (st : List Nat), (l.foldl (sha256Round ws) st).length = st.length
  | [], _ => rfl
  | x :: xs, st => by
      simp only [List.foldl_cons]
      rw [foldl_sha256Round_length ws xs (sha256Round ws st x), sha256Round_length]

theorem sha256Compress_length (st b : List Nat) :
    (sha256Compress st b).length = st.length := by
  unfold sha256Compress
  simp [List.length_zipWith, foldl_sha256Round_length]

theorem foldl_sha256Compress_length :
    ∀ (blocks : List (List Nat)) (st : List Nat),
      (blocks.foldl sha256Compress st).length = st.length
  | [], _ => rfl
  | b :: bs, st => by
      simp only [List.foldl_cons]
      rw [foldl_sha256Compress_length bs (sha256Compress st b), sha256Compress_length]

theorem map_be32_foldr_length :
    ∀ l : List Nat, ((l.map be32).foldr (· ++ ·) []).length = 4 * l.length
  | [] => rfl
  | x :: xs => by
      simp only [List.map_cons, List.foldr_cons, List.length_append,
        map_be32_foldr_length xs]
      simp [be32]
      omega

theorem sha256_length (msg : List Nat) : (sha256 msg).length = 32 := by
  simp only [sha256]
  rw [map_be32_foldr_length, foldl_sha256Compress_length]
  rfl

theorem sha256_ne_nil (msg : List Nat) : sha256 msg ≠ [] := by
  intro h
  have hl := sha256_length msg
  rw [h] at hl
  simp at hl

theorem hmacSha256_ne_nil (key msg : List Nat) : hmacSha256 key msg ≠ [] := by
  unfold hmacSha256
  exact sha256_ne_nil _

theorem hexEncode_ne_empty {bs : List Nat} (h : bs ≠ []) : hexEncode bs ≠ "" := by
  cases bs with
  | nil => exact absurd rfl h
  | cons b rest =>
      intro he
      have hd := congrArg String.data he
      rw [show ("" : String).data = [] from rfl] at hd
      simp [hexEncode, hexByte] at hd

theorem hmacSha256Hex_ne_empty (secret : String) (body : List Nat) :
    hmacSha256Hex secret body ≠ "" := by
  unfold hmacSha256Hex
  exact hexEncode_ne_empty (hmacSha256_ne_nil _ _)

/-! ### Claim C3: the signature gate and its ordering -/

/-- The gate itself is faithful to the spec: verify_signature accepts
exactly when the X-Signature header carries the lowercase hex
HMAC-SHA256 of the raw body bytes under the shared secret. -/
theorem verify_signature_accepts_iff (secret : String) (xSig : Option String)
    (body : List Nat) :
    verify_signature secret xSig body = true ↔
      xSig = some (hmacSha256Hex secret body) := by
  constructor
  · intro h
    cases xSig with
    | none => simp [verify_signature] at h
    | some sig =>
        simp only [verify_signature] at h
        by_cases he : sig = ""
        · rw [if_pos he] at h; cases h
        · rw [if_neg he] at h
          exact congrArg some (eq_of_beq h)
  · intro h
    rw [h]
    simp only [verify_signature]
    rw [if_neg (hmacSha256Hex_ne_empty secret body)]
    simp

/-- For requests whose body FastAPI can JSON-decode (or whose body is
empty), a failing signature is answered 401 with the store untouched,
before any payload field validation. -/
theorem signature_failure_401_when_body_decodable (secret : String)
    (store : List Message) (now : String) (req : WebhookRequest)
    (h : verify_signature secret req.xSignature req.body = false)
    (hdec : req.decoded ≠ BodyDecode.undecodable ∨ req.body = []) :
    handle_webhook secret store now req = (invalidSignatureResponse, store) := by
  have hguard : ¬(req.body ≠ [] ∧ req.decoded = BodyDecode.undecodable) := by
    rintro ⟨hb, hc⟩
    rcases hdec with h2 | h2
    · exact h2 hc
    · exact hb h2
  simp only [handle_webhook]
  rw [if_neg hguard, h]
  simp

/-- Claim C3 (code-bug exhibit): the program answers 422, not 401, to a
request whose non-empty body is not valid JSON, for every signature
header: FastAPI's request handler raises the RequestValidationError
while JSON-decoding the body, before the verify_signature route
dependency ever runs, contradicting the spec's requirement that the
signature check run strictly before request-body JSON validation. -/
theorem claim3_undecodable_body_preempts_signature (secret : String)
    (store : List Message) (now : String) (req : WebhookRequest)
    (hbody : req.body ≠ []) (hdec : req.decoded = BodyDecode.undecodable) :
    handle_webhook secret store now req = (validationErrorResponse, store) := by
  simp only [handle_webhook]
  rw [if_pos ⟨hbody, hdec⟩]

set_option maxRecDepth 1000000 in
/-- Witness for C3's exhibit: the failing input is the body "\x7b"
(undecodable JSON) with the invalid signature "deadbeef"; the program
answers 422 although the signature is wrong. -/
theorem claim3_witness :
    reqBadJson.body ≠ [] ∧
    verify_signature "k" reqBadJson.xSignature reqBadJson.body = false ∧
    handle_webhook "k" [msgA] "2025-03-03T00:00:00Z" reqBadJson =
      (validationErrorResponse, [msgA]) :=
  ⟨by decide, by decide,
   claim3_undecodable_body_preempts_signature "k" [msgA] "2025-03-03T00:00:00Z" reqBadJson
     (by decide) rfl⟩

/-! ### Claim C8: limit/offset boundary validation -/

/-- Claim C8: GET /messages accepts exactly when the effective limit
(default 50) is within 1..100 and the effective offset (default 0) is
non-negative; any accepted response echoes those effective values, and
out-of-range values are answered 422, never clamped. -/
theorem claim8_limit_offset_validation (store : List Message)
    (limitRaw offsetRaw : Option Int) (fromQ sinceQ q : Option String) :
    ((∃ r, list_messages store limitRaw offsetRaw fromQ sinceQ q = Except.ok r) ↔
      (1 ≤ limitRaw.getD 50 ∧ limitRaw.getD 50 ≤ 100 ∧ 0 ≤ offsetRaw.getD 0)) ∧
    (∀ r, list_messages store limitRaw offsetRaw fromQ sinceQ q = Except.ok r →
      r.limit = limitRaw.getD 50 ∧ r.offset = offsetRaw.getD 0) ∧
    (¬(1 ≤ limitRaw.getD 50 ∧ limitRaw.getD 50 ≤ 100 ∧ 0 ≤ offsetRaw.getD 0) →
      list_messages store limitRaw offsetRaw fromQ sinceQ q = Except.error 422) := by
  simp only [list_messages]
  by_cases h1 : limitRaw.getD 50 < 1 ∨ 100 < limitRaw.getD 50
  · rw [if_pos h1]
    refine ⟨by simp; omega, fun r hr => by simp at hr, fun _ => rfl⟩
  · rw [if_neg h1]
    by_cases h2 : offsetRaw.getD 0 < 0
    · rw [if_pos h2]
      refine ⟨by simp; omega, fun r hr => by simp at hr, fun _ => rfl⟩
    · rw [if_neg h2]
      refine ⟨⟨fun _ => by omega, fun _ => ⟨_, rfl⟩⟩, ?_, ?_⟩
      · intro r hr
        injection hr with h
        subst h
        exact ⟨rfl, rfl⟩
      · intro hc
        exact absurd (by omega) hc

/-- Witness for C8: limit=0 is rejected with 422. -/
theorem claim8_witness :
    ¬(1 ≤ (some (0 : Int)).getD 50 ∧ (some (0 : Int)).getD 50 ≤ 100 ∧
        0 ≤ (none : Option Int).getD 0) ∧
    list_messages ([] : List Message) (some 0) none none none none = Except.error 422 :=
  ⟨by decide,
   (claim8_limit_offset_validation [] (some 0) none none none none).2.2 (by decide)⟩

/-! ### Character and string bridges for the validation lemmas -/

theorem char_le_iff (a b : Char) : a ≤ b ↔ a.toNat ≤ b.toNat := by
  rw [Char.le_def, UInt32.le_def, BitVec.le_def]; rfl

theorem char_toNat_inj {a b : Char} (h : a.toNat = b.toNat) : a = b :=
  Char.eq_of_val_eq (UInt32.toNat.inj h)

/-- ASCII digits are Unicode decimal digits: the range (48, 57) heads
the Nd table. -/
theorem asciiDigit_isUnicodeDigit {c : Char} (h0 : '0' ≤ c) (h9 : c ≤ '9') :
    isUnicodeDigit c = true := by
  unfold isUnicodeDigit
  rw [List.any_eq_true]
  refine ⟨(48, 57), by simp [ndRanges], ?_⟩
  have a := (char_le_iff '0' c).mp h0
  have b := (char_le_iff c '9').mp h9
  rw [show ('0' : Char).toNat = 48 from rfl] at a
  rw [show ('9' : Char).toNat = 57 from rfl] at b
  simp only [Bool.and_eq_true, decide_eq_true_eq]
  omega

theorem list_len2 {l : List Char} (h : l.length = 2) : ∃ a b, l = [a, b] := by
  cases l with
  | nil => simp at h
  | cons a t =>
    cases t with
    | nil => simp at h
    | cons b t2 =>
      cases t2 with
      | nil => exact ⟨a, b, rfl⟩
      | cons c t3 => simp at h

theorem list_len4 {l : List Char} (h : l.length = 4) : ∃ a b c d, l = [a, b, c, d] := by
  cases l with
  | nil => simp at h
  | cons a t =>
    have ht : t.length = 3 := by simpa using h
    cases t with
    | nil => simp at ht
    | cons b t2 =>
      have ht2 : t2.length = 2 := by simpa using ht
      obtain ⟨c, d, rfl⟩ := list_len2 ht2
      exact ⟨a, b, c, d, rfl⟩

theorem string_one_le_length_iff {s : String} : 1 ≤ s.length ↔ s ≠ "" := by
  constructor
  · intro h he
    subst he
    exact absurd h (by decide)
  · intro h
    cases s with
    | mk l =>
      cases l with
      | nil => exact absurd rfl h
      | cons a t => simp [String.length]

/-- The E.164 regex of the code accepts exactly the strings of the
amended wording: [1-9] then 1-14 Unicode decimal digits. -/
theorem matchesE164_iff (s : String) : matchesE164 s = true ↔ E164SpecU s := by
  constructor
  · intro h
    unfold matchesE164 at h
    split at h
    · rename_i c rest heq
      simp only [Bool.and_eq_true, decide_eq_true_eq, List.all_eq_true] at h
      obtain ⟨⟨⟨⟨h1, h9⟩, hall⟩, hlen1⟩, hlen14⟩ := h
      refine ⟨c :: rest, heq, by simp; omega, by simp; omega, ?_, ⟨c, rfl, h1, h9⟩⟩
      intro x hx
      rcases List.mem_cons.mp hx with rfl | hx
      · exact asciiDigit_isUnicodeDigit (le_trans (by decide) h1) h9
      · exact hall x hx
    · cases h
  · rintro ⟨ds, hdata, h2, h15, hdig, d, hhead, hd1, hd9⟩
    cases ds with
    | nil => simp at h2
    | cons d0 ds2 =>
      obtain rfl : d0 = d := by
        simp only [List.head?_cons, Option.some.injEq] at hhead
        exact hhead
      unfold matchesE164
      rw [hdata]
      simp only [Bool.and_eq_true, decide_eq_true_eq, List.all_eq_true]
      refine ⟨⟨⟨⟨hd1, hd9⟩, ?_⟩, ?_⟩, ?_⟩
      · intro x hx
        exact hdig x (List.mem_cons_of_mem _ hx)
      · simp at h2 ⊢; omega
      · simp at h15 ⊢; omega

/-- The timestamp regex of the code accepts exactly the strings of the
shape YYYY-MM-DDTHH:MM:SSZ with Unicode decimal digits in the digit
positions. -/
theorem matchesTsPattern_iff (s : String) : matchesTsPattern s = true ↔ TsSpecU s := by
  constructor
  · intro h
    unfold matchesTsPattern at h
    split at h
    · rename_i y1 y2 y3 y4 m1 m2 d1 d2 e1 e2 n1 n2 x1 x2 heq
      simp only [List.all_eq_true] at h
      refine ⟨[y1, y2, y3, y4], [m1, m2], [d1, d2], [e1, e2], [n1, n2], [x1, x2],
        rfl, rfl, rfl, rfl, rfl, rfl, ?_, ?_⟩
      · intro c hc
        exact h c hc
      · rw [heq]; rfl
    · cases h
  · rintro ⟨y, mo, d, e, n, x, hy, hmo, hd, he, hn, hx, hdig, hdata⟩
    obtain ⟨y1, y2, y3, y4, rfl⟩ := list_len4 hy
    obtain ⟨m1, m2, rfl⟩ := list_len2 hmo
    obtain ⟨d1, d2, rfl⟩ := list_len2 hd
    obtain ⟨e1, e2, rfl⟩ := list_len2 he
    obtain ⟨n1, n2, rfl⟩ := list_len2 hn
    obtain ⟨x1, x2, rfl⟩ := list_len2 hx
    unfold matchesTsPattern
    rw [hdata]
    exact List.all_eq_true.mpr (fun c hc => hdig c hc)

/-- Pydantic validation succeeds exactly on the payload shapes of the
amended claim. -/
theorem validatePayload_some_iff (raw : RawPayload) :
    (∃ p, validatePayload raw = some p) ↔ shapeValidSpecU raw := by
  unfold validatePayload shapeValidSpecU
  cases hm : raw.message_id with
  | none => simp
  | some mid =>
    cases hf : raw.from_msisdn with
    | none => simp
    | some f =>
      cases ht : raw.to_msisdn with
      | none => simp
      | some t =>
        cases hts : raw.ts with
        | none => simp
        | some ts =>
          simp only [Option.some.injEq]
          constructor
          · rintro ⟨p, hp⟩
            split at hp
            · rename_i hcond
              simp only [Bool.and_eq_true, decide_eq_true_eq] at hcond
              obtain ⟨⟨⟨⟨hmid, hfE⟩, htE⟩, htsP⟩, htext⟩ := hcond
              refine ⟨⟨mid, rfl, (string_one_le_length_iff.mp hmid)⟩,
                ⟨f, rfl, (matchesE164_iff f).mp hfE⟩,
                ⟨t, rfl, (matchesE164_iff t).mp htE⟩,
                ⟨ts, rfl, (matchesTsPattern_iff ts).mp htsP⟩, ?_⟩
              cases hx : raw.text with
              | none => exact Or.inl rfl
              | some x =>
                refine Or.inr ⟨x, rfl, ?_⟩
                rw [hx] at htext
                simpa using htext
            · cases hp
          · rintro ⟨⟨mid2, hmid2, hmidne⟩, ⟨f2, hf2, hfE⟩, ⟨t2, ht2, htE⟩,
              ⟨ts2, hts2, htsP⟩, htext⟩
            subst hmid2
            subst hf2
            subst ht2
            subst hts2
            have hcond : (decide (1 ≤ mid.length) && matchesE164 f && matchesE164 t &&
                matchesTsPattern ts &&
                (match raw.text with
                 | none => true
                 | some x => decide (x.length ≤ 4096))) = true := by
              simp only [Bool.and_eq_true, decide_eq_true_eq]
              refine ⟨⟨⟨⟨string_one_le_length_iff.mpr hmidne, (matchesE164_iff f).mpr hfE⟩,
                (matchesE164_iff t).mpr htE⟩, (matchesTsPattern_iff ts).mpr htsP⟩, ?_⟩
              rcases htext with hnone | ⟨x, hx, hxle⟩
              · rw [hnone]
              · rw [hx]
                simpa using hxle
            rw [if_pos hcond]
            exact ⟨_, rfl⟩

/-! ### Claim C4: payload shape validation (corrected) -/

/-- Counterexample to claim C4 as stated: the payload whose from
address is "+1٢" (Arabic-Indic digit two) is accepted by the program —
Python's \\d matches any Unicode decimal digit — although that address
is not a plus sign followed by digits 0-9 as the claim describes. -/
theorem claim4_counterexample :
    (webhook_after_gate [] "2025-03-03T00:00:00Z"
      (BodyDecode.objectOf rawUnicode)).1.status = 200 ∧
    ¬ shapeValidSpec rawUnicode := by
  constructor
  · decide
  · rintro ⟨_, ⟨f, hf, hE⟩, _, _, _⟩
    have hf2 : some "+1٢" = some f := hf
    obtain rfl : f = "+1٢" := by injection hf2 with h; exact h.symm
    obtain ⟨ds, hdata, _, _, hdig, _⟩ := hE
    have hdata2 : ['+', '1', '٢'] = '+' :: ds := hdata
    obtain rfl : ds = ['1', '٢'] := by injection hdata2 with _ h; exact h.symm
    have h2 := hdig '٢' (by simp)
    exact absurd h2.2 (by decide)

/-- Claim C4 amended: after the signature gate, a webhook body is
accepted (status 200) exactly when it decodes to an object whose
message_id is a non-empty string, whose from and to match the pattern
plus sign, ASCII digit 1-9, then 1-14 further Unicode decimal digits,
whose ts has the shape YYYY-MM-DDTHH:MM:SSZ with Unicode decimal
digits in the digit positions, and whose text is absent or at most
4096 characters; every other decoded body is rejected with 422 and the
store is not mutated. -/
theorem claim4_amended_payload_validation (store : List Message) (now : String)
    (decoded : BodyDecode) :
    ((webhook_after_gate store now decoded).1.status = 200 ↔
      ∃ raw, decoded = BodyDecode.objectOf raw ∧ shapeValidSpecU raw) ∧
    ((webhook_after_gate store now decoded).1.status ≠ 200 →
      webhook_after_gate store now decoded = (validationErrorResponse, store)) := by
  cases decoded with
  | undecodable =>
    constructor
    · simp [webhook_after_gate, validationErrorResponse]
    · intro _; rfl
  | otherJson =>
    constructor
    · simp [webhook_after_gate, validationErrorResponse]
    · intro _; rfl
  | objectOf raw =>
    cases hv : validatePayload raw with
    | none =>
      constructor
      · simp only [webhook_after_gate, hv]
        constructor
        · intro h; exact absurd h (by decide)
        · rintro ⟨raw2, hraw2, hspec⟩
          obtain rfl : raw2 = raw := by injection hraw2 with h2; exact h2.symm
          obtain ⟨p, hp⟩ := (validatePayload_some_iff raw2).mpr hspec
          rw [hp] at hv
          cases hv
      · intro _
        simp [webhook_after_gate, hv]
    | some p =>
      constructor
      · simp only [webhook_after_gate, hv]
        constructor
        · intro _
          exact ⟨raw, rfl, (validatePayload_some_iff raw).mp ⟨p, hv⟩⟩
        · intro _
          simp [receive_webhook, okBody]
      · intro hne
        exact absurd (by
          simp only [webhook_after_gate, hv]
          simp [receive_webhook, okBody]) hne

/-- Witness for the amended C4: the concrete valid payload is accepted;
a decoded body that is not an object of the expected fields is rejected
with 422 without touching the store. -/
theorem claim4_witness :
    (webhook_after_gate [] "2025-03-03T00:00:00Z"
      (BodyDecode.objectOf rawGood)).1.status = 200 ∧
    (webhook_after_gate [msgA] "2025-03-03T00:00:00Z" BodyDecode.otherJson).1.status ≠ 200 ∧
    webhook_after_gate [msgA] "2025-03-03T00:00:00Z" BodyDecode.otherJson =
      (validationErrorResponse, [msgA]) :=
  ⟨(claim4_amended_payload_validation [] "2025-03-03T00:00:00Z"
      (BodyDecode.objectOf rawGood)).1.mpr
      ⟨rawGood, rfl,
        ⟨"m9", rfl, by decide⟩,
        ⟨"+1234567890", rfl,
          ⟨['1', '2', '3', '4', '5', '6', '7', '8', '9', '0'], rfl, by decide, by decide,
            by decide, ⟨'1', rfl, by decide, by decide⟩⟩⟩,
        ⟨"+19876543210", rfl,
          ⟨['1', '9', '8', '7', '6', '5', '4', '3', '2', '1', '0'], rfl, by decide, by decide,
            by decide, ⟨'1', rfl, by decide, by decide⟩⟩⟩,
        ⟨"2025-01-01T12:00:00Z", rfl,
          ⟨['2', '0', '2', '5'], ['0', '1'], ['0', '1'], ['1', '2'], ['0', '0'], ['0', '0'],
            rfl, rfl, rfl, rfl, rfl, rfl, by decide, rfl⟩⟩,
        Or.inr ⟨"hi", rfl, by decide⟩⟩,
   by decide,
   (claim4_amended_payload_validation [msgA] "2025-03-03T00:00:00Z"
      BodyDecode.otherJson).2 (by decide)⟩

/-! ### Order theory of the lexicographic string comparison -/

theorem listCharLt_irrefl : ∀ l : List Char, listCharLt l l = false
  | [] => rfl
  | c :: cs => by simp [listCharLt, listCharLt_irrefl cs]

theorem listCharLt_trichotomy : ∀ a b : List Char,
    listCharLt a b = true ∨ a = b ∨ listCharLt b a = true
  | [], [] => Or.inr (Or.inl rfl)
  | [], _ :: _ => Or.inl rfl
  | _ :: _, [] => Or.inr (Or.inr rfl)
  | c :: cs, d :: ds => by
      rcases lt_trichotomy c d with h | h | h
      · exact Or.inl (by simp [listCharLt, h])
      · subst h
        rcases listCharLt_trichotomy cs ds with h2 | h2 | h2
        · exact Or.inl (by simp [listCharLt, lt_irrefl, h2])
        · exact Or.inr (Or.inl (by rw [h2]))
        · exact Or.inr (Or.inr (by simp [listCharLt, lt_irrefl, h2]))
      · exact Or.inr (Or.inr (by simp [listCharLt, h]))

theorem listCharLt_trans : ∀ {a b c : List Char},
    listCharLt a b = true → listCharLt b c = true → listCharLt a c = true
  | [], [], _, hab, _ => by cases hab
  | [], _ :: _, [], _, hbc => by cases hbc
  | [], _ :: _, _ :: _, _, _ => rfl
  | _ :: _, [], _, hab, _ => by cases hab
  | _ :: _, _ :: _, [], _, hbc => by cases hbc
  | x :: xs, y :: ys, z :: zs, hab, hbc => by
      simp only [listCharLt] at hab hbc ⊢
      rcases lt_trichotomy x y with h1 | h1 | h1
      · rcases lt_trichotomy y z with h2 | h2 | h2
        · simp [lt_trans h1 h2]
        · subst h2; simp [h1]
        · rw [if_neg (lt_asymm h2), if_pos h2] at hbc; cases hbc
      · subst h1
        rcases lt_trichotomy x z with h2 | h2 | h2
        · simp [h2]
        · subst h2
          rw [if_neg (lt_irrefl x), if_neg (lt_irrefl x)] at hab hbc ⊢
          exact listCharLt_trans hab hbc
        · rw [if_neg (lt_asymm h2), if_pos h2] at hbc; cases hbc
      · rw [if_neg (lt_asymm h1), if_pos h1] at hab; cases hab

theorem listCharLe_iff : ∀ a b : List Char,
    listCharLe a b = true ↔ (listCharLt a b = true ∨ a = b)
  | [], [] => by simp [listCharLe, listCharLt]
  | [], _ :: _ => by simp [listCharLe, listCharLt]
  | _ :: _, [] => by simp [listCharLe, listCharLt]
  | c :: cs, d :: ds => by
      simp only [listCharLe, listCharLt]
      rcases lt_trichotomy c d with h | h | h
      · simp [h]
      · subst h
        simp only [lt_irrefl, if_neg, if_false]
        rw [listCharLe_iff cs ds]
        constructor
        · rintro (h2 | rfl)
          · exact Or.inl h2
          · exact Or.inr rfl
        · rintro (h2 | h2)
          · exact Or.inl h2
          · exact Or.inr (by injection h2 with _ h3)
      · simp only [if_neg (lt_asymm h), if_pos h]
        constructor
        · intro h2; cases h2
        · rintro (h2 | h2)
          · cases h2
          · injection h2 with h3 _
            exact absurd h3.symm (ne_of_lt h)

theorem strLt_trans {a b c : String} (hab : strLt a b = true) (hbc : strLt b c = true) :
    strLt a c = true := listCharLt_trans hab hbc

theorem strLt_irrefl (a : String) : strLt a a = false := listCharLt_irrefl a.data

theorem strLt_asymm {a b : String} (hab : strLt a b = true) : strLt b a = false := by
  cases h : strLt b a
  · rfl
  · have := strLt_trans hab h
    rw [strLt_irrefl] at this
    cases this

theorem strLt_trichotomy (a b : String) :
    strLt a b = true ∨ a = b ∨ strLt b a = true := by
  rcases listCharLt_trichotomy a.data b.data with h | h | h
  · exact Or.inl h
  · exact Or.inr (Or.inl (String.ext h))
  · exact Or.inr (Or.inr h)

theorem strLe_iff {a b : String} : strLe a b = true ↔ (strLt a b = true ∨ a = b) := by
  unfold strLe strLt
  rw [listCharLe_iff]
  constructor
  · rintro (h | h)
    · exact Or.inl h
    · exact Or.inr (String.ext h)
  · rintro (h | rfl)
    · exact Or.inl h
    · exact Or.inr rfl

theorem strLe_trans {a b c : String} (hab : strLe a b = true) (hbc : strLe b c = true) :
    strLe a c = true := by
  rcases strLe_iff.mp hab with h1 | rfl
  · rcases strLe_iff.mp hbc with h2 | rfl
    · exact strLe_iff.mpr (Or.inl (strLt_trans h1 h2))
    · exact strLe_iff.mpr (Or.inl h1)
  · exact hbc

theorem strLe_total (a b : String) : strLe a b = true ∨ strLe b a = true := by
  rcases strLt_trichotomy a b with h | rfl | h
  · exact Or.inl (strLe_iff.mpr (Or.inl h))
  · exact Or.inl (strLe_iff.mpr (Or.inr rfl))
  · exact Or.inr (strLe_iff.mpr (Or.inl h))

theorem strLe_antisymm {a b : String} (hab : strLe a b = true) (hba : strLe b a = true) :
    a = b := by
  rcases strLe_iff.mp hab with h1 | rfl
  · rcases strLe_iff.mp hba with h2 | rfl
    · have := strLt_asymm h1
      rw [h2] at this
      cases this
    · rfl
  · rfl

instance : IsTotal Message msgLeProp where
  total a b := by
    unfold msgLeProp
    rcases strLt_trichotomy a.ts b.ts with h | h | h
    · exact Or.inl (Or.inl h)
    · rcases strLe_total a.message_id b.message_id with h2 | h2
      · exact Or.inl (Or.inr ⟨h, h2⟩)
      · exact Or.inr (Or.inr ⟨h.symm, h2⟩)
    · exact Or.inr (Or.inl h)

instance : IsTrans Message msgLeProp where
  trans a b c hab hbc := by
    unfold msgLeProp at *
    rcases hab with h1 | ⟨e1, l1⟩
    · rcases hbc with h2 | ⟨e2, _⟩
      · exact Or.inl (strLt_trans h1 h2)
      · exact Or.inl (e2 ▸ h1)
    · rcases hbc with h2 | ⟨e2, l2⟩
      · exact Or.inl (e1 ▸ h2)
      · exact Or.inr ⟨e1.trans e2, strLe_trans l1 l2⟩

/-- msgLeProp is antisymmetric on messages with distinct ids: mutually
related messages share timestamp and message_id. -/
theorem msgLeProp_antisymm_fields {a b : Message}
    (hab : msgLeProp a b) (hba : msgLeProp b a) :
    a.ts = b.ts ∧ a.message_id = b.message_id := by
  unfold msgLeProp at hab hba
  rcases hab with h1 | ⟨e1, l1⟩
  · rcases hba with h2 | ⟨e2, _⟩
    · have := strLt_asymm h1
      rw [h2] at this
      cases this
    · rw [e2] at h1
      rw [strLt_irrefl] at h1
      cases h1
  · rcases hba with h2 | ⟨e2, l2⟩
    · rw [e1] at h2
      rw [strLt_irrefl] at h2
      cases h2
    · exact ⟨e1, strLe_antisymm l1 l2⟩

/-! ### The filter chain as a single List.filter -/

/-- The chained filters of the page query equal one filter by the
conjoined row predicate. -/
theorem pageFiltered_eq (store : List Message) (fromQ sinceQ q : Option String) :
    pageFiltered store fromQ sinceQ q = store.filter (rowPred fromQ sinceQ q) := by
  unfold pageFiltered rowPred
  rcases fromQ with _ | f <;> rcases sinceQ with _ | s <;> rcases q with _ | qs <;>
    simp only []
  · simp [List.filter_true]
  · by_cases hq : qs = "" <;>
      simp [hq, List.filter_true, List.filter_filter, Bool.and_comm, Bool.and_left_comm,
        Bool.and_assoc]
  · by_cases hs : s = "" <;>
      simp [hs, List.filter_true, List.filter_filter, Bool.and_comm, Bool.and_left_comm,
        Bool.and_assoc]
  · by_cases hs : s = "" <;> by_cases hq : qs = "" <;>
      simp [hs, hq, List.filter_true, List.filter_filter, Bool.and_comm, Bool.and_left_comm,
        Bool.and_assoc]
  · by_cases hf : f = "" <;>
      simp [hf, List.filter_true, List.filter_filter, Bool.and_comm, Bool.and_left_comm,
        Bool.and_assoc]
  · by_cases hf : f = "" <;> by_cases hq : qs = "" <;>
      simp [hf, hq, List.filter_true, List.filter_filter, Bool.and_comm, Bool.and_left_comm,
        Bool.and_assoc]
  · by_cases hf : f = "" <;> by_cases hs : s = "" <;>
      simp [hf, hs, List.filter_true, List.filter_filter, Bool.and_comm, Bool.and_left_comm,
        Bool.and_assoc]
  · by_cases hf : f = "" <;> by_cases hs : s = "" <;> by_cases hq : qs = "" <;>
      simp [hf, hs, hq, List.filter_true, List.filter_filter, Bool.and_comm,
        Bool.and_left_comm, Bool.and_assoc]

/-- Uniqueness of sorted lists under a relation that is antisymmetric on
the elements actually present. -/
theorem eq_of_perm_of_sorted_local {α : Type} {R : α → α → Prop} :
    ∀ {l₁ l₂ : List α}, List.Perm l₁ l₂ → l₁.Pairwise R → l₂.Pairwise R →
      (∀ a ∈ l₁, ∀ b ∈ l₁, R a b → R b a → a = b) → l₁ = l₂
  | [], _, hp, _, _, _ => (hp.symm.eq_nil).symm
  | a :: t₁, [], hp, _, _, _ => hp.eq_nil
  | a :: t₁, b :: t₂, hp, h₁, h₂, anti => by
      have hb1 : b ∈ a :: t₁ := hp.symm.subset (List.mem_cons_self b t₂)
      have hab : a = b := by
        rcases List.mem_cons.mp hb1 with h | hbt₁
        · exact h.symm
        · have ha2 : a ∈ b :: t₂ := hp.subset (List.mem_cons_self a t₁)
          rcases List.mem_cons.mp ha2 with h | hat₂
          · exact h
          · have rab : R a b := (List.pairwise_cons.mp h₁).1 b hbt₁
            have rba : R b a := (List.pairwise_cons.mp h₂).1 a hat₂
            exact anti a (List.mem_cons_self a t₁) b hb1 rab rba
      subst hab
      have ht : List.Perm t₁ t₂ := hp.cons_inv
      have := eq_of_perm_of_sorted_local ht (List.pairwise_cons.mp h₁).2
        (List.pairwise_cons.mp h₂).2
        (fun x hx y hy rxy ryx =>
          anti x (List.mem_cons_of_mem a hx) y (List.mem_cons_of_mem a hy) rxy ryx)
      rw [this]

/-! ### Claim C5: canonical ordering of GET /messages -/

/-- Claim C5: the data page of GET /messages is always sorted by
(timestamp ascending, message_id ascending); moreover, for stores with
unique message ids the response is determined by the set of stored
messages alone (insertion order is irrelevant), so the order is a
deterministic total order even when timestamps collide. -/
theorem claim5_canonical_ordering (store store' : List Message) (limit offset : Int)
    (fromQ sinceQ q : Option String) :
    List.Pairwise respOrdered (list_messages_ok store limit offset fromQ sinceQ q).data ∧
    (List.Perm store store' → (store.map (fun m => m.message_id)).Nodup →
      list_messages_ok store limit offset fromQ sinceQ q =
        list_messages_ok store' limit offset fromQ sinceQ q) := by
  constructor
  · have hs : List.Pairwise msgLeProp
        (List.insertionSort msgLeProp (pageFiltered store fromQ sinceQ q)) :=
      List.sorted_insertionSort msgLeProp _
    have hpage : List.Pairwise msgLeProp
        (((List.insertionSort msgLeProp (pageFiltered store fromQ sinceQ q)).drop
          offset.toNat).take limit.toNat) :=
      List.Pairwise.sublist
        ((List.take_sublist _ _).trans (List.drop_sublist _ _)) hs
    exact hpage.map toResponse (fun a b h => h)
  · intro hperm hnodup
    have hpf : List.Perm (pageFiltered store fromQ sinceQ q) (pageFiltered store' fromQ sinceQ q) := by
      rw [pageFiltered_eq, pageFiltered_eq]
      exact hperm.filter _
    have hsub : ∀ m ∈ pageFiltered store fromQ sinceQ q, m ∈ store := by
      intro m hm
      rw [pageFiltered_eq] at hm
      exact (List.filter_sublist store).subset hm
    have hsorteq : List.insertionSort msgLeProp (pageFiltered store fromQ sinceQ q) =
        List.insertionSort msgLeProp (pageFiltered store' fromQ sinceQ q) := by
      apply eq_of_perm_of_sorted_local
        (((List.perm_insertionSort msgLeProp _).trans hpf).trans
          (List.perm_insertionSort msgLeProp _).symm)
        (List.sorted_insertionSort msgLeProp _)
        (List.sorted_insertionSort msgLeProp _)
      intro a ha b hb rab rba
      have hfields := msgLeProp_antisymm_fields rab rba
      have ha2 : a ∈ store :=
        hsub a ((List.perm_insertionSort msgLeProp _).subset ha)
      have hb2 : b ∈ store :=
        hsub b ((List.perm_insertionSort msgLeProp _).subset hb)
      exact List.inj_on_of_nodup_map hnodup ha2 hb2 hfields.2
    have hcount : countFiltered store fromQ sinceQ q = countFiltered store' fromQ sinceQ q := by
      have hlen : (pageFiltered store fromQ sinceQ q).length =
          (pageFiltered store' fromQ sinceQ q).length := hpf.length_eq
      exact hlen
    simp only [list_messages_ok]
    rw [hsorteq, hcount]

/-- Witness for C5 at two permuted two-message stores with distinct ids
and colliding-free timestamps. -/
theorem claim5_witness :
    List.Pairwise respOrdered (list_messages_ok [msgA, msgB] 50 0 none none none).data ∧
    (List.Perm [msgA, msgB] [msgB, msgA] ∧
      (([msgA, msgB].map (fun m => m.message_id)).Nodup ∧
        list_messages_ok [msgA, msgB] 50 0 none none none =
          list_messages_ok [msgB, msgA] 50 0 none none none)) :=
  ⟨(claim5_canonical_ordering [msgA, msgB] [msgB, msgA] 50 0 none none none).1,
   by decide,
   by decide,
   (claim5_canonical_ordering [msgA, msgB] [msgB, msgA] 50 0 none none none).2
     (by decide) (by decide)⟩

/-! ### LIKE pattern theory -/

theorem suffixes_iff : ∀ (cs s : List Char), s ∈ suffixes cs ↔ ∃ pre, cs = pre ++ s
  | [], s => by
      constructor
      · intro h
        simp [suffixes] at h
        subst h
        exact ⟨[], rfl⟩
      · rintro ⟨pre, h⟩
        have := (List.append_eq_nil.mp h.symm).2
        subst this
        simp [suffixes]
  | c :: cs, s => by
      simp only [suffixes, List.mem_cons]
      constructor
      · rintro (rfl | h)
        · exact ⟨[], rfl⟩
        · obtain ⟨pre, rfl⟩ := (suffixes_iff cs s).mp h
          exact ⟨c :: pre, rfl⟩
      · rintro ⟨pre, hpre⟩
        cases pre with
        | nil =>
            left
            simpa using hpre.symm
        | cons p ps =>
            right
            apply (suffixes_iff cs s).mpr
            injection hpre with h1 h2
            exact ⟨ps, h2⟩

theorem likeMatch_percent (ps cs : List Char) :
    likeMatch ('%' :: ps) cs = true ↔
      ∃ pre post, cs = pre ++ post ∧ likeMatch ps post = true := by
  rw [show likeMatch ('%' :: ps) cs = (suffixes cs).any (fun s => likeMatch ps s) from rfl]
  rw [List.any_eq_true]
  constructor
  · rintro ⟨s, hs, hmatch⟩
    obtain ⟨pre, rfl⟩ := (suffixes_iff cs s).mp hs
    exact ⟨pre, s, rfl, hmatch⟩
  · rintro ⟨pre, post, rfl, hmatch⟩
    exact ⟨post, (suffixes_iff _ post).mpr ⟨pre, rfl⟩, hmatch⟩

theorem likeMatch_literal_percent :
    ∀ (qs : List Char), (∀ c ∈ qs, c ≠ '%' ∧ c ≠ '_') →
      ∀ cs, (likeMatch (qs ++ ['%']) cs = true ↔ ∃ post, cs = qs ++ post)
  | [], _, cs => by
      simp only [List.nil_append]
      constructor
      · intro _
        exact ⟨cs, rfl⟩
      · intro _
        rw [likeMatch_percent]
        exact ⟨cs, [], by simp, rfl⟩
  | a :: qs, hnw, cs => by
      have ha := hnw a (List.mem_cons_self a qs)
      have hqs : ∀ c ∈ qs, c ≠ '%' ∧ c ≠ '_' :=
        fun c hc => hnw c (List.mem_cons_of_mem a hc)
      cases cs with
      | nil =>
          simp only [List.cons_append]
          constructor
          · intro h
            simp [likeMatch, ha.1] at h
          · rintro ⟨post, hpost⟩
            simp at hpost
      | cons c cs2 =>
          simp only [List.cons_append, likeMatch, if_neg ha.1, if_neg ha.2,
            Bool.and_eq_true, beq_iff_eq, List.append_eq]
          rw [likeMatch_literal_percent qs hqs cs2]
          constructor
          · rintro ⟨rfl, post, rfl⟩
            exact ⟨post, rfl⟩
          · rintro ⟨post, hpost⟩
            injection hpost with h1 h2
            exact ⟨h1.symm, post, h2⟩

theorem likeMatch_substring (qs : List Char) (hnw : ∀ c ∈ qs, c ≠ '%' ∧ c ≠ '_')
    (cs : List Char) :
    likeMatch ('%' :: (qs ++ ['%'])) cs = true ↔ ∃ pre post, cs = pre ++ qs ++ post := by
  rw [likeMatch_percent]
  constructor
  · rintro ⟨pre, post0, rfl, h⟩
    obtain ⟨post, rfl⟩ := (likeMatch_literal_percent qs hnw post0).mp h
    exact ⟨pre, post, by simp⟩
  · rintro ⟨pre, post, h⟩
    refine ⟨pre, qs ++ post, by simpa [List.append_assoc] using h, ?_⟩
    exact (likeMatch_literal_percent qs hnw _).mpr ⟨post, rfl⟩

theorem char_toNat_ofNat {n : Nat} (h : n < 55296) : (Char.ofNat n).toNat = n := by
  have hv : n.isValidChar := Or.inl h
  unfold Char.ofNat
  rw [dif_pos hv]
  simp [Char.ofNatAux, Char.toNat, UInt32.toNat, UInt32.ofNat']

/-- ASCII lowercasing never produces a LIKE wildcard character from a
non-wildcard character. -/
theorem asciiLowerChar_preserves_noWildcard {c : Char} (h : c ≠ '%' ∧ c ≠ '_') :
    asciiLowerChar c ≠ '%' ∧ asciiLowerChar c ≠ '_' := by
  unfold asciiLowerChar
  split
  · rename_i hAZ
    have h65 : 65 ≤ c.toNat := by
      have := (char_le_iff 'A' c).mp hAZ.1
      simpa using this
    have h90 : c.toNat ≤ 90 := by
      have := (char_le_iff c 'Z').mp hAZ.2
      simpa using this
    have hofNat : (Char.ofNat (c.toNat + 32)).toNat = c.toNat + 32 :=
      char_toNat_ofNat (by omega)
    constructor
    · intro hEq
      have := congrArg Char.toNat hEq
      rw [hofNat] at this
      have h37 : ('%' : Char).toNat = 37 := rfl
      rw [h37] at this
      omega
    · intro hEq
      have := congrArg Char.toNat hEq
      rw [hofNat] at this
      have h95 : ('_' : Char).toNat = 95 := rfl
      rw [h95] at this
      omega
  · exact h

/-- The q filter of the code is the case-insensitive substring test
whenever q contains no LIKE wildcard. -/
theorem qLikeMatch_iff (qs t : String) (hnw : noWildcard qs) :
    qLikeMatch qs t = true ↔
      ∃ pre post, (asciiLower t).data = pre ++ (asciiLower qs).data ++ post := by
  unfold qLikeMatch
  have hdata : (asciiLower ("%" ++ qs ++ "%")).data =
      '%' :: ((asciiLower qs).data ++ ['%']) := by
    simp only [asciiLower, String.data_append]
    simp [List.map_append, show asciiLowerChar '%' = '%' from by decide]
  rw [hdata]
  have hnw2 : ∀ c ∈ (asciiLower qs).data, c ≠ '%' ∧ c ≠ '_' := by
    intro c hc
    simp only [asciiLower, List.mem_map] at hc
    obtain ⟨c0, hc0, rfl⟩ := hc
    exact asciiLowerChar_preserves_noWildcard (hnw c0 hc0)
  exact likeMatch_substring _ hnw2 _

/-! ### Claim C6: conjunctive filters (corrected) -/

/-- Counterexample to claim C6 as stated: the LIKE underscore wildcard
passes through the q filter, so the stored message with text "axb" is
returned for q = "a_b" although "a_b" is not a substring of its text
under any case folding. -/
theorem claim6_counterexample :
    wildMsg ∈ pageFiltered [wildMsg] none none (some "a_b") ∧
    ¬ qSubstringSpec "a_b" wildMsg := by
  constructor
  · decide
  · rintro ⟨t, ht, pre, post, h⟩
    have ht2 : some "axb" = some t := ht
    obtain rfl : t = "axb" := by injection ht2 with h2; exact h2.symm
    rw [show (asciiLower "axb").data = ['a', 'x', 'b'] from by decide,
        show (asciiLower "a_b").data = ['a', '_', 'b'] from by decide] at h
    have hlen := congrArg List.length h
    simp at hlen
    obtain ⟨hp, hq⟩ : pre.length = 0 ∧ post.length = 0 := by omega
    obtain rfl : pre = [] := List.length_eq_zero.mp hp
    obtain rfl : post = [] := List.length_eq_zero.mp hq
    simp at h

theorem fromCond_iff {fromQ : Option String} {m : Message} :
    (match fromQ with
     | some f => if f = "" then true else m.from_msisdn == f
     | none => true) = true ↔
      (∀ f, fromQ = some f → f ≠ "" → m.from_msisdn = f) := by
  cases fromQ with
  | none => simp
  | some f =>
      by_cases hf : f = "" <;> simp [hf]

theorem sinceCond_iff {sinceQ : Option String} {m : Message} :
    (match sinceQ with
     | some s => if s = "" then true else strLe s m.ts
     | none => true) = true ↔
      (∀ s, sinceQ = some s → s ≠ "" → strLe s m.ts = true) := by
  cases sinceQ with
  | none => simp
  | some s =>
      by_cases hs : s = "" <;> simp [hs]

theorem qCond_iff {q : Option String} {m : Message} :
    (match q with
     | some qs =>
         if qs = "" then true
         else
           match m.text with
           | some t => qLikeMatch qs t
           | none => false
     | none => true) = true ↔
      (∀ qs, q = some qs → qs ≠ "" → ∃ t, m.text = some t ∧ qLikeMatch qs t = true) := by
  cases q with
  | none => simp
  | some qs =>
      change (if qs = "" then true
        else
          match m.text with
          | some t => qLikeMatch qs t
          | none => false) = true ↔ _
      by_cases hq : qs = ""
      · simp [hq]
      · rw [if_neg hq]
        cases hx : m.text with
        | none =>
            constructor
            · intro h
              cases h
            · intro h
              obtain ⟨t2, ht2, _⟩ := h qs rfl hq
              cases ht2
        | some t =>
            constructor
            · intro h
              intro qs2 hqs2 hne2
              obtain rfl : qs = qs2 := by injection hqs2
              exact ⟨t, rfl, h⟩
            · intro h
              obtain ⟨t2, ht2, hlike⟩ := h qs rfl hq
              obtain rfl : t = t2 := by injection ht2
              exact hlike

theorem rowPred_true_iff {fromQ sinceQ q : Option String} {m : Message} :
    rowPred fromQ sinceQ q m = true ↔
      (∀ f, fromQ = some f → f ≠ "" → m.from_msisdn = f) ∧
      (∀ s, sinceQ = some s → s ≠ "" → strLe s m.ts = true) ∧
      (∀ qs, q = some qs → qs ≠ "" → ∃ t, m.text = some t ∧ qLikeMatch qs t = true) := by
  unfold rowPred
  rw [Bool.and_eq_true, Bool.and_eq_true]
  rw [fromCond_iff, sinceCond_iff, qCond_iff]
  constructor
  · rintro ⟨⟨h1, h2⟩, h3⟩
    exact ⟨h1, h2, h3⟩
  · rintro ⟨h1, h2, h3⟩
    exact ⟨⟨h1, h2⟩, h3⟩

/-- Claim C6 amended: the filters are conjunctive — a message is in the
filtered set exactly when it is stored and satisfies every truthy
filter, where from is an exact match, since is an inclusive
lexicographic lower bound, and q (for q containing no LIKE wildcard
characters % and _) is a case-insensitive substring match under which
absent text never matches.  (For q containing % or _ the code performs
a LIKE pattern match instead of a substring match.) -/
theorem claim6_amended_conjunctive_filters (store : List Message)
    (fromQ sinceQ q : Option String) (m : Message)
    (hqw : ∀ qs, q = some qs → noWildcard qs) :
    m ∈ pageFiltered store fromQ sinceQ q ↔
      m ∈ store ∧
      (∀ f, fromQ = some f → f ≠ "" → m.from_msisdn = f) ∧
      (∀ s, sinceQ = some s → s ≠ "" → strLe s m.ts = true) ∧
      (∀ qs, q = some qs → qs ≠ "" → qSubstringSpec qs m) := by
  rw [pageFiltered_eq, List.mem_filter, rowPred_true_iff]
  constructor
  · rintro ⟨hm, h1, h2, h3⟩
    refine ⟨hm, h1, h2, fun qs hqs hne => ?_⟩
    obtain ⟨t, ht, hlike⟩ := h3 qs hqs hne
    exact ⟨t, ht, (qLikeMatch_iff qs t (hqw qs hqs)).mp hlike⟩
  · rintro ⟨hm, h1, h2, h3⟩
    refine ⟨hm, h1, h2, fun qs hqs hne => ?_⟩
    obtain ⟨t, ht, hsub⟩ := h3 qs hqs hne
    exact ⟨t, ht, (qLikeMatch_iff qs t (hqw qs hqs)).mpr hsub⟩

/-- Witness for the amended C6 at a concrete store and a wildcard-free
q filter. -/
theorem claim6_witness :
    msgA ∈ pageFiltered [msgA] none none (some "LO W") ↔
      msgA ∈ [msgA] ∧
      (∀ f, (none : Option String) = some f → f ≠ "" → msgA.from_msisdn = f) ∧
      (∀ s, (none : Option String) = some s → s ≠ "" → strLe s msgA.ts = true) ∧
      (∀ qs, (some "LO W" : Option String) = some qs → qs ≠ "" → qSubstringSpec qs msgA) :=
  claim6_amended_conjunctive_filters [msgA] none none (some "LO W") msgA
    (fun qs hqs => by
      injection hqs with h
      subst h
      show ∀ c ∈ ("LO W" : String).data, c ≠ '%' ∧ c ≠ '_'
      decide)

end LyftrSpec
